import Mathlib

/-!
Shallow embedding of the Wordle-solving programs wordle_solver.py (class
WordleGame) and wordle_bot.py (class Wordle), together with proofs about the
feedback oracle, the candidate filter, the guess selector and the bounded
solving loop.

Words and feedback strings are lists of characters.  Feedback symbols follow
the source: G for an exact match, Y for present-elsewhere, R for absent.
-/

/-- Model of a word: a list of characters. -/
abbrev Word := List Char

namespace WordleGame

/-- WORD_LENGTH from the CONFIG dictionary of wordle_solver.py. -/
def WORD_LENGTH : Nat := 5

/-- MAX_ATTEMPTS from the CONFIG dictionary of wordle_solver.py. -/
def MAX_ATTEMPTS : Nat := 6

/-- First loop of WordleGame._get_feedback_for_filter: every position with an
exact match gets feedback G and both letters are consumed (set to None in the
source); the other positions keep feedback R and their letters stay live.  The
result pairs, per position, the feedback so far with the still-live guess
letter, and also returns the answer pool (answer_chars after the loop).  The
simultaneous recursion models the index loop for inputs of equal length. -/
def pass1 : Word → Word → List (Char × Option Char) × List (Option Char)
  | g :: gs, b :: bs =>
    let rest := pass1 gs bs
    if g = b then (('G', none) :: rest.1, none :: rest.2)
    else (('R', some g) :: rest.1, some b :: rest.2)
  | _, _ => ([], [])

/-- Model of the statement answer_chars[answer_chars.index(c)] = None: blank
out the first live occurrence of c in the answer pool. -/
def consumeFirst : List (Option Char) → Char → List (Option Char)
  | [], _ => []
  | x :: xs, c => if x = some c then none :: xs else x :: consumeFirst xs c

/-- Second loop of WordleGame._get_feedback_for_filter: a position whose guess
letter is still live and occurs in the live answer pool gets feedback Y and
consumes that occurrence; every other position keeps its pass-one feedback. -/
def pass2 : List (Char × Option Char) → List (Option Char) → List Char
  | [], _ => []
  | (f, og) :: rest, pool =>
    match og with
    | none => f :: pass2 rest pool
    | some c =>
      if some c ∈ pool then 'Y' :: pass2 rest (consumeFirst pool c)
      else f :: pass2 rest pool

/-- Embedding of WordleGame._get_feedback_for_filter (wordle_solver.py,
lines 85-102): the two-pass feedback simulation. -/
def getFeedbackForFilter (guess answer : Word) : List Char :=
  let st := pass1 guess answer
  pass2 st.1 st.2

/-- Embedding of WordleGame._filter_words (wordle_solver.py, lines 104-111):
keep exactly the possible words whose simulated feedback against the guess
equals the received feedback. -/
def filterWords (possible : List Word) (guess : Word) (feedback : List Char) :
    List Word :=
  possible.filter (fun w => getFeedbackForFilter guess w == feedback)

/-- Fixed opening word of _get_best_guess. -/
def soare : Word := "soare".toList

/-- Model of the Counter built in _get_best_guess (lines 124-125): the count of
a character is the number of possible words containing it at least once, since
each word contributes its set of distinct letters to the flat list. -/
def charCount (possible : List Word) (c : Char) : Nat :=
  possible.countP (fun w => decide (c ∈ w))

/-- Score of a candidate in _get_best_guess (line 131): the sum of the counts
of its distinct letters (set(word) in the source). -/
def score (possible : List Word) (w : Word) : Nat :=
  (w.dedup.map (charCount possible)).sum

/-- Selection loop of _get_best_guess (lines 127-134): starting from
best_word = "" and max_score = -1, move to each word whose score strictly
exceeds the running maximum, so ties keep the earlier word. -/
def bestLoop (sc : Word → Nat) : List Word → Word → Int → Word
  | [], best, _ => best
  | w :: ws, best, m =>
    if m < (sc w : Int) then bestLoop sc ws w (sc w) else bestLoop sc ws best m

/-- Embedding of WordleGame._get_best_guess (wordle_solver.py, lines 113-136).
The call random.choice in the small-set branch is modelled by an arbitrary
selection function pick supplied as a parameter. -/
def getBestGuess (pick : List Word → Word) (possible allWords : List Word) :
    Option Word :=
  if possible = [] then none
  else if possible.length = allWords.length ∧ soare ∈ possible then some soare
  else if possible.length ≤ 2 then some (pick possible)
  else some (bestLoop (score possible) possible [] (-1))

/-- Terminal outcome of one run of WordleGame.solve, one constructor per way
the attempt loop can end: the all-G win break, the break when _get_best_guess
returns None, the break when the received feedback is empty, and the for-else
exhaustion after MAX_ATTEMPTS full iterations. -/
inductive Outcome where
  | won (guess : Word) (attempt : Nat)
  | noCandidates
  | invalidFeedback
  | exhausted
deriving DecidableEq, Repr

/-- Attempt loop of WordleGame.solve (wordle_solver.py, lines 143-162),
fuelled by the number of remaining attempts; attempt is the 1-based number of
the current attempt and fbs the sequence of feedback strings the external
client returns, one per submitted guess (a missing entry behaves like the
empty feedback string).  Returns the outcome and the submitted guesses in
order. -/
def solveGo (pick : List Word → Word) (allWords : List Word) :
    Nat → Nat → List (List Char) → List Word → Outcome × List Word
  | 0, _, _, _ => (.exhausted, [])
  | fuel + 1, attempt, fbs, possible =>
    match getBestGuess pick possible allWords with
    | none => (.noCandidates, [])
    | some guess =>
      let fb := fbs.headD []
      if fb = [] then (.invalidFeedback, [guess])
      else if fb = List.replicate WORD_LENGTH 'G' then (.won guess attempt, [guess])
      else
        let r := solveGo pick allWords fuel (attempt + 1) fbs.tail
          (filterWords possible guess fb)
        (r.1, guess :: r.2)

/-- Embedding of WordleGame.solve: run the attempt loop with MAX_ATTEMPTS
remaining attempts, the first attempt numbered 1. -/
def solve (pick : List Word → Word) (allWords possible : List Word)
    (fbs : List (List Char)) : Outcome × List Word :=
  solveGo pick allWords MAX_ATTEMPTS 1 fbs possible

/-- Model of Python str.strip: drop whitespace from both ends. -/
def strip (s : List Char) : List Char :=
  ((s.dropWhile Char.isWhitespace).reverse.dropWhile Char.isWhitespace).reverse

/-- Embedding of WordleGame._load_words (wordle_solver.py, lines 73-83) on the
list of lines of the word file: keep the lines whose stripped form has the
required length, lower-cased; when none remain the source raises ValueError,
modelled as the error case. -/
def loadWords (lines : List (List Char)) (len : Nat) :
    Except String (List Word) :=
  let words := (lines.filter (fun w => (strip w).length == len)).map
    (fun w => (strip w).map Char.toLower)
  if words = [] then
    .error "Word list is empty or contains no words of the correct length."
  else .ok words

/-- Construction of a WordleGame followed by solve: _load_words runs inside
the constructor, before any session is started or any guess submitted, and a
ValueError there aborts the run with no guesses made; on success the possible
words start as a copy of the full list. -/
def runGame (pick : List Word → Word) (lines : List (List Char))
    (fbs : List (List Char)) : Except String (Outcome × List Word) :=
  match loadWords lines WORD_LENGTH with
  | .error e => .error e
  | .ok allWords => .ok (solve pick allWords allWords fbs)

/-- Guesses submitted over a whole run: none when construction failed. -/
def submittedGuesses : Except String (Outcome × List Word) → List Word
  | .error _ => []
  | .ok r => r.2

end WordleGame

namespace Wordle

/-- First loop of Wordle.get_feedback (wordle_bot.py, lines 56-60): exact
matches get feedback G and both letters are consumed; the result pairs the
per-position feedback with the still-live guess letter, plus the answer
pool. -/
def markExact : Word → Word → List (Char × Option Char) × List (Option Char)
  | g :: gs, b :: bs =>
    let rest := markExact gs bs
    if g = b then (('G', none) :: rest.1, none :: rest.2)
    else (('R', some g) :: rest.1, some b :: rest.2)
  | _, _ => ([], [])

/-- Model of answer_chars[answer_chars.index(c)] = None in wordle_bot.py. -/
def blankFirst : List (Option Char) → Char → List (Option Char)
  | [], _ => []
  | x :: xs, c => if x = some c then none :: xs else x :: blankFirst xs c

/-- Second loop of Wordle.get_feedback (wordle_bot.py, lines 61-64): live
guess letters found in the live answer pool become Y and consume one
occurrence. -/
def markPresent : List (Char × Option Char) → List (Option Char) → List Char
  | [], _ => []
  | (f, og) :: rest, pool =>
    match og with
    | none => f :: markPresent rest pool
    | some c =>
      if some c ∈ pool then 'Y' :: markPresent rest (blankFirst pool c)
      else f :: markPresent rest pool

/-- Embedding of the static method Wordle.get_feedback (wordle_bot.py,
lines 51-65), the same two-pass algorithm with the word length fixed at 5. -/
def getFeedback (guess answer : Word) : List Char :=
  let st := markExact guess answer
  markPresent st.1 st.2

/-- Embedding of Wordle.remove_impossible_words (wordle_bot.py, lines 67-71):
the filter runs over possible_words[1:], so the head of the list (the word
just guessed) is always dropped, and of the rest only the words whose
simulated feedback equals the stored response survive. -/
def removeImpossibleWords (possible : List Word) (guess : Word)
    (response : List Char) : List Word :=
  (possible.drop 1).filter (fun w => getFeedback guess w == response)

/-- Shape check of Wordle.play (wordle_bot.py, line 77): the feedback must
have the word size as length and only symbols G, Y, R. -/
def validShape (n : Nat) (fb : List Char) : Bool :=
  fb.length == n && fb.all (fun c => c == 'G' || c == 'Y' || c == 'R')

/-- Terminal outcome of one run of Wordle.game: the win break, the break when
no possible words remain after filtering, and the exit of the while loop with
status still PLAY (attempt bound hit or candidate list empty). -/
inductive BotOutcome where
  | won (attempts : Nat)
  | noCandidates
  | notWon
deriving DecidableEq, Repr

/-- While loop of Wordle.game (wordle_bot.py, lines 85-98), fuelled by
max_attempts - attempts.  State: 1 + the attempts counter, the current guess
(always the head of possible_words), the candidate list, the stored response
(which stays stale when the incoming feedback is malformed, since play only
prints a message in that case), and the incoming feedback sequence.  Returns
the outcome and the submitted guesses in order. -/
def game : Nat → Nat → Word → List Word → List Char → List (List Char) →
    BotOutcome × List Word
  | 0, _, _, _, _, _ => (.notWon, [])
  | fuel + 1, attemptNo, guess, possible, response, fbs =>
    if possible = [] then (.notWon, [])
    else
      let fb := fbs.headD []
      if fb = "GGGGG".toList then (.won attemptNo, [guess])
      else
        let response2 := if validShape 5 fb then fb else response
        let possible2 := removeImpossibleWords possible guess response2
        if possible2 = [] then (.noCandidates, [guess])
        else
          let r := game fuel (attemptNo + 1) (possible2.headD []) possible2
            response2 fbs.tail
          (r.1, guess :: r.2)

/-- Embedding of Wordle.__init__ (wordle_bot.py, lines 35-49) for the word
loading and first-guess selection: keep the 5-letter lines lower-cased,
shuffle them (shuf models random.shuffle) and take element 0 as the first
guess; on an empty list that indexing fails (IndexError) before any API call,
modelled as none. -/
def init (shuf : List Word → List Word) (lines : List (List Char)) :
    Option (Word × List Word) :=
  let words := (lines.filter (fun w => (WordleGame.strip w).length == 5)).map
    (fun w => (WordleGame.strip w).map Char.toLower)
  match shuf words with
  | [] => none
  | g :: ws => some (g, g :: ws)

/-- Whole bot run: construction followed by the game loop with attempts = 0
and max_attempts = 6 and an empty stored response; a failed construction
submits no guess. -/
def run (shuf : List Word → List Word) (lines : List (List Char))
    (fbs : List (List Char)) : Option (BotOutcome × List Word) :=
  match init shuf lines with
  | none => none
  | some st => some (game 6 1 st.1 st.2 [] fbs)

end Wordle


namespace WordleGame

/-- Number of positions whose guess letter is c and whose feedback symbol
credits the letter as exact or present. -/
def creditCount (c : Char) (guess fb : List Char) : Nat :=
  (guess.zip fb).countP (fun p => decide (p.1 = c ∧ (p.2 = 'G' ∨ p.2 = 'Y')))

/-- Number of positions whose guess letter is c and whose pass-one feedback is
already G. -/
def gCount (c : Char) (guess : List Char) (pairs : List (Char × Option Char)) : Nat :=
  (guess.zip pairs).countP (fun p => decide (p.1 = c ∧ p.2.1 = 'G'))

/-- Shape of a pass-one result relative to the guess: every position carries
either feedback G with a consumed letter or feedback R with its live guess
letter. -/
def Aligned : List Char → List (Char × Option Char) → Prop
  | [], [] => True
  | g :: gs, p :: ps =>
    ((p.1 = 'G' ∧ p.2 = none) ∨ (p.1 = 'R' ∧ p.2 = some g)) ∧ Aligned gs ps
  | _, _ => False

end WordleGame

namespace WordleGame

lemma mem_filterWords {possible : List Word} {guess : Word} {fb : List Char}
    {w : Word} :
    w ∈ filterWords possible guess fb ↔
      w ∈ possible ∧ getFeedbackForFilter guess w = fb := by
  simp [filterWords, List.mem_filter]

lemma pass1_self : ∀ g : Word,
    pass1 g g =
      (List.replicate g.length ('G', none), List.replicate g.length none) := by
  intro g
  induction g with
  | nil => rfl
  | cons x xs ih => simp [pass1, ih, List.replicate_succ]

lemma pass2_all_none : ∀ (n : Nat) (pool : List (Option Char)),
    pass2 (List.replicate n (('G' : Char), (none : Option Char))) pool =
      List.replicate n 'G' := by
  intro n
  induction n with
  | zero => intro pool; rfl
  | succ k ih => intro pool; simp [pass2, ih, List.replicate_succ]

lemma getFeedbackForFilter_self (g : Word) :
    getFeedbackForFilter g g = List.replicate g.length 'G' := by
  simp [getFeedbackForFilter, pass1_self, pass2_all_none]

end WordleGame

namespace Wordle

lemma mem_removeImpossibleWords {possible : List Word} {guess : Word}
    {fb : List Char} {w : Word} :
    w ∈ removeImpossibleWords possible guess fb ↔
      w ∈ possible.drop 1 ∧ getFeedback guess w = fb := by
  simp [removeImpossibleWords, List.mem_filter]

lemma markExact_eq : ∀ g b : Word, markExact g b = WordleGame.pass1 g b := by
  intro g
  induction g with
  | nil => intro b; cases b <;> rfl
  | cons x xs ih =>
    intro b
    cases b with
    | nil => rfl
    | cons y ys => simp [markExact, WordleGame.pass1, ih]

lemma blankFirst_eq : ∀ (pool : List (Option Char)) (c : Char),
    blankFirst pool c = WordleGame.consumeFirst pool c := by
  intro pool c
  induction pool with
  | nil => rfl
  | cons x xs ih => simp [blankFirst, WordleGame.consumeFirst, ih]

lemma markPresent_eq : ∀ (ps : List (Char × Option Char)) (pool : List (Option Char)),
    markPresent ps pool = WordleGame.pass2 ps pool := by
  intro ps
  induction ps with
  | nil => intro pool; rfl
  | cons p rest ih =>
    intro pool
    obtain ⟨f, og⟩ := p
    cases og with
    | none => simp [markPresent, WordleGame.pass2, ih]
    | some c => simp [markPresent, WordleGame.pass2, ih, blankFirst_eq]

lemma getFeedback_eq (g b : Word) :
    getFeedback g b = WordleGame.getFeedbackForFilter g b := by
  simp [getFeedback, WordleGame.getFeedbackForFilter, markExact_eq, markPresent_eq]

end Wordle

namespace WordleGame

lemma consumeFirst_count_mem :
    ∀ {pool : List (Option Char)} {c : Char}, some c ∈ pool →
      (consumeFirst pool c).count (some c) + 1 = pool.count (some c) := by
  intro pool c h
  induction pool with
  | nil => simp at h
  | cons x xs ih =>
    by_cases hx : x = some c
    · subst hx
      simp [consumeFirst, List.count_cons]
    · have hmem : some c ∈ xs := by
        rcases List.mem_cons.mp h with h1 | h1
        · exact absurd h1.symm hx
        · exact h1
      have hxc : ¬x == some c := by simp [hx]
      simp [consumeFirst, hx, List.count_cons, hxc, ih hmem]

lemma consumeFirst_count_ne {c d : Char} (h : d ≠ c) :
    ∀ pool : List (Option Char),
      (consumeFirst pool d).count (some c) = pool.count (some c) := by
  intro pool
  induction pool with
  | nil => rfl
  | cons x xs ih =>
    by_cases hx : x = some d
    · subst hx
      have hne : ¬(some d == some c) := by simp [h]
      simp [consumeFirst, List.count_cons, hne]
    · simp [consumeFirst, hx, List.count_cons, ih]

lemma pass2_credit (c : Char) :
    ∀ (ps : List (Char × Option Char)) (g : List Char) (pool : List (Option Char)),
      Aligned g ps →
      creditCount c g (pass2 ps pool) ≤ gCount c g ps + pool.count (some c) := by
  intro ps
  induction ps with
  | nil =>
    intro g pool hA
    cases g with
    | nil => simp [creditCount]
    | cons x xs => exact absurd hA (by simp [Aligned])
  | cons p rest ih =>
    intro g pool hA
    cases g with
    | nil => exact absurd hA (by simp [Aligned])
    | cons x xs =>
      obtain ⟨f, og⟩ := p
      have hA' : ((f = 'G' ∧ og = none) ∨ (f = 'R' ∧ og = some x)) ∧ Aligned xs rest := hA
      obtain ⟨hp, hrest⟩ := hA'
      rcases hp with ⟨hf, hog⟩ | ⟨hf, hog⟩
      · subst hf; subst hog
        have hrec := ih xs pool hrest
        by_cases hxc : x = c
        · subst hxc
          simp [pass2, creditCount, gCount, List.countP_cons] at hrec ⊢
          omega
        · simp [pass2, creditCount, gCount, List.countP_cons, hxc] at hrec ⊢
          omega
      · subst hf; subst hog
        by_cases hd : some x ∈ pool
        · by_cases hxc : x = c
          · subst hxc
            have hrec := ih xs (consumeFirst pool x) hrest
            have hcnt := consumeFirst_count_mem hd
            simp [pass2, hd, creditCount, gCount, List.countP_cons] at hrec ⊢
            omega
          · have hrec := ih xs (consumeFirst pool x) hrest
            have hcnt := consumeFirst_count_ne hxc pool
            simp [pass2, hd, creditCount, gCount, List.countP_cons, hxc] at hrec ⊢
            omega
        · have hrec := ih xs pool hrest
          simp [pass2, hd, creditCount, gCount, List.countP_cons] at hrec ⊢
          omega

lemma aligned_pass1 :
    ∀ (g b : Word), g.length = b.length → Aligned g (pass1 g b).1 := by
  intro g
  induction g with
  | nil =>
    intro b h
    cases b with
    | nil => trivial
    | cons y ys => simp at h
  | cons x xs ih =>
    intro b h
    cases b with
    | nil => simp at h
    | cons y ys =>
      have h' : xs.length = ys.length := by simpa using h
      by_cases hxy : x = y
      · subst hxy
        have hp : pass1 (x :: xs) (x :: ys) =
            (('G', none) :: (pass1 xs ys).1, none :: (pass1 xs ys).2) := by
          simp [pass1]
        rw [hp]
        exact ⟨Or.inl ⟨rfl, rfl⟩, ih ys h'⟩
      · have hp : pass1 (x :: xs) (y :: ys) =
            (('R', some x) :: (pass1 xs ys).1, some y :: (pass1 xs ys).2) := by
          simp [pass1, hxy]
        rw [hp]
        exact ⟨Or.inr ⟨rfl, rfl⟩, ih ys h'⟩

lemma pool_count :
    ∀ (g b : Word) (c : Char), g.length = b.length →
      gCount c g (pass1 g b).1 + (pass1 g b).2.count (some c) = b.count c := by
  intro g
  induction g with
  | nil =>
    intro b c h
    cases b with
    | nil => simp [gCount, pass1]
    | cons y ys => simp at h
  | cons x xs ih =>
    intro b c h
    cases b with
    | nil => simp at h
    | cons y ys =>
      have h' : xs.length = ys.length := by simpa using h
      have hrec := ih ys c h'
      by_cases hxy : x = y
      · subst hxy
        by_cases hxc : x = c
        · subst hxc
          simp [pass1, gCount, List.countP_cons, List.count_cons] at hrec ⊢
          omega
        · simp [pass1, gCount, List.countP_cons, List.count_cons, hxc] at hrec ⊢
          omega
      · by_cases hyc : y = c
        · subst hyc
          simp [pass1, hxy, gCount, List.countP_cons, List.count_cons] at hrec ⊢
          omega
        · simp [pass1, hxy, gCount, List.countP_cons, List.count_cons, hyc] at hrec ⊢
          omega

lemma credit_le_count (guess answer : Word) (h : guess.length = answer.length)
    (c : Char) :
    creditCount c guess (getFeedbackForFilter guess answer) ≤ answer.count c := by
  have h1 := pass2_credit c (pass1 guess answer).1 guess (pass1 guess answer).2
    (aligned_pass1 guess answer h)
  have h2 := pool_count guess answer c h
  simp only [getFeedbackForFilter] at h1 ⊢
  omega

end WordleGame

namespace WordleGame

lemma bestLoop_spec (sc : Word → Nat) :
    ∀ (ws : List Word) (best : Word) (m : Int),
      (bestLoop sc ws best m = best ∧ ∀ w ∈ ws, (sc w : Int) ≤ m) ∨
      (∃ l₁ r l₂, ws = l₁ ++ r :: l₂ ∧ bestLoop sc ws best m = r ∧
        m < (sc r : Int) ∧ (∀ v ∈ l₁, sc v < sc r) ∧ (∀ v ∈ l₂, sc v ≤ sc r)) := by
  intro ws
  induction ws with
  | nil => intro best m; exact Or.inl ⟨rfl, by simp⟩
  | cons w ws ih =>
    intro best m
    by_cases hm : m < (sc w : Int)
    · rcases ih w (sc w) with ⟨heq, hall⟩ | ⟨l₁, r, l₂, hsplit, heq, hlt, hpre, hpost⟩
      · refine Or.inr ⟨[], w, ws, by simp, ?_, hm, by simp, ?_⟩
        · simp [bestLoop, hm, heq]
        · intro v hv
          exact_mod_cast hall v hv
      · refine Or.inr ⟨w :: l₁, r, l₂, by simp [hsplit], ?_, ?_, ?_, hpost⟩
        · simp [bestLoop, hm, heq]
        · exact hm.trans hlt
        · intro v hv
          rcases List.mem_cons.mp hv with hv | hv
          · subst hv; exact_mod_cast hlt
          · exact hpre v hv
    · rcases ih best m with ⟨heq, hall⟩ | ⟨l₁, r, l₂, hsplit, heq, hlt, hpre, hpost⟩
      · refine Or.inl ⟨?_, ?_⟩
        · simp [bestLoop, hm, heq]
        · intro v hv
          rcases List.mem_cons.mp hv with hv | hv
          · subst hv; exact le_of_not_lt hm
          · exact hall v hv
      · refine Or.inr ⟨w :: l₁, r, l₂, by simp [hsplit], ?_, hlt, ?_, hpost⟩
        · simp [bestLoop, hm, heq]
        · intro v hv
          rcases List.mem_cons.mp hv with hv | hv
          · rw [hv]
            have h1 : (sc w : Int) ≤ m := le_of_not_lt hm
            exact_mod_cast h1.trans_lt hlt
          · exact hpre v hv

lemma solveGo_guesses_le (pick : List Word → Word) (allWords : List Word) :
    ∀ (fuel attempt : Nat) (fbs : List (List Char)) (possible : List Word),
      (solveGo pick allWords fuel attempt fbs possible).2.length ≤ fuel := by
  intro fuel
  induction fuel with
  | zero => intro attempt fbs possible; simp [solveGo]
  | succ n ih =>
    intro attempt fbs possible
    rw [solveGo]
    cases getBestGuess pick possible allWords with
    | none => simp
    | some guess =>
      dsimp only
      split
      · simp
      · split
        · simp
        · simp only [List.length_cons]
          exact Nat.succ_le_succ (ih _ _ _)

end WordleGame

namespace Wordle

lemma game_guesses_le :
    ∀ (fuel attemptNo : Nat) (guess : Word) (possible : List Word)
      (response : List Char) (fbs : List (List Char)),
      (game fuel attemptNo guess possible response fbs).2.length ≤ fuel := by
  intro fuel
  induction fuel with
  | zero => intro a g p r f; simp [game]
  | succ n ih =>
    intro a g p r f
    rw [game]
    split
    · simp
    · dsimp only
      split
      · simp
      · split
        · split
          · simp
          · simp only [List.length_cons]
            exact Nat.succ_le_succ (ih _ _ _ _ _)
        · split
          · simp
          · simp only [List.length_cons]
            exact Nat.succ_le_succ (ih _ _ _ _ _)

end Wordle

/-- C1: evaluation of both solving loops on malformed feedback (the length-4
string GGRY).  WordleGame.solve has no shape validation: it applies the
candidate filter to the malformed feedback (which empties the candidate
list), runs a further iteration and ends in the no-candidates break, not in
an invalid-feedback terminal outcome.  Wordle.game detects the bad shape in
play but only prints a message: the loop still filters with the stale stored
response and likewise ends in the no-candidates break. -/
theorem invalid_feedback_not_terminal_eval :
    (∀ pick : List Word → Word,
      WordleGame.solve pick
        ["crane".toList, "slate".toList, "trace".toList, "brace".toList]
        ["crane".toList, "slate".toList, "trace".toList, "brace".toList]
        ["GGRY".toList] =
        (WordleGame.Outcome.noCandidates, ["trace".toList])) ∧
    WordleGame.filterWords
      ["crane".toList, "slate".toList, "trace".toList, "brace".toList]
      "trace".toList "GGRY".toList = [] ∧
    Wordle.game 6 1 "crane".toList ["crane".toList, "slate".toList] []
      ["GGRY".toList] = (Wordle.BotOutcome.noCandidates, ["crane".toList]) :=
  ⟨fun _ => rfl, by decide, by decide⟩

/-- C2 (amended): if the true secret is among the candidates and the feedback
was computed by the oracle against that secret, the secret survives
WordleGame._filter_words unconditionally; it survives
Wordle.remove_impossible_words provided it sits in the tail of the candidate
list, since that variant always drops the head (the word just guessed). -/
theorem secret_survives_filter (possible : List Word) (guess secret : Word) :
    (secret ∈ possible →
      secret ∈ WordleGame.filterWords possible guess
        (WordleGame.getFeedbackForFilter guess secret)) ∧
    (secret ∈ possible.drop 1 →
      secret ∈ Wordle.removeImpossibleWords possible guess
        (Wordle.getFeedback guess secret)) := by
  constructor
  · intro h
    exact WordleGame.mem_filterWords.mpr ⟨h, rfl⟩
  · intro h
    exact Wordle.mem_removeImpossibleWords.mpr ⟨h, rfl⟩

/-- C2 witness: concrete instance of both parts for secret brace. -/
theorem secret_survives_filter_witness :
    ("brace".toList ∈ (["crane".toList, "brace".toList] : List Word)) ∧
    "brace".toList ∈ WordleGame.filterWords ["crane".toList, "brace".toList]
      "slate".toList (WordleGame.getFeedbackForFilter "slate".toList "brace".toList) ∧
    ("brace".toList ∈ (["crane".toList, "brace".toList] : List Word).drop 1) ∧
    "brace".toList ∈ Wordle.removeImpossibleWords ["crane".toList, "brace".toList]
      "slate".toList (Wordle.getFeedback "slate".toList "brace".toList) :=
  ⟨by decide,
    (secret_survives_filter ["crane".toList, "brace".toList] "slate".toList
      "brace".toList).1 (by decide),
    by decide,
    (secret_survives_filter ["crane".toList, "brace".toList] "slate".toList
      "brace".toList).2 (by decide)⟩

/-- C2 counterexample: the claim as stated fails on
Wordle.remove_impossible_words.  The candidate set contains the secret crane
and the feedback is the oracle feedback of guess slate against crane, yet the
secret is gone after filtering because the head of the list is dropped
unconditionally. -/
theorem secret_at_head_dropped_cex :
    "crane".toList ∈ (["crane".toList] : List Word) ∧
    "crane".toList ∉ Wordle.removeImpossibleWords ["crane".toList] "slate".toList
      (Wordle.getFeedback "slate".toList "crane".toList) := by decide

/-- C3 (amended): WordleGame._filter_words keeps exactly the subset of the
candidate list whose simulated feedback equals the received feedback;
Wordle.remove_impossible_words keeps exactly that subset of the tail of the
candidate list (the head is always removed). -/
theorem filter_exact_subset (possible : List Word) (guess : Word)
    (fb : List Char) (w : Word) :
    (w ∈ WordleGame.filterWords possible guess fb ↔
      w ∈ possible ∧ WordleGame.getFeedbackForFilter guess w = fb) ∧
    (w ∈ Wordle.removeImpossibleWords possible guess fb ↔
      w ∈ possible.drop 1 ∧ Wordle.getFeedback guess w = fb) :=
  ⟨WordleGame.mem_filterWords, Wordle.mem_removeImpossibleWords⟩

/-- C3 counterexample: Wordle.remove_impossible_words is not the subset of the
current candidate list satisfying the feedback equality: the word crane
satisfies the equality (the feedback was computed against crane itself) yet is
removed, because it is the head of the list. -/
theorem remove_not_exact_subset_cex :
    Wordle.removeImpossibleWords ["crane".toList, "slate".toList] "trace".toList
      (Wordle.getFeedback "trace".toList "crane".toList) ≠
    (["crane".toList, "slate".toList] : List Word).filter
      (fun w => Wordle.getFeedback "trace".toList w ==
        Wordle.getFeedback "trace".toList "crane".toList) := by decide

/-- C4 counterexample: the oracle feedback for guess crane against answer
brace is not R at position 0 as the claim states: the letter c of the guess
occurs in brace (position 3) and is credited as present. -/
theorem crane_brace_feedback_cex :
    WordleGame.getFeedbackForFilter "crane".toList "brace".toList ≠
      "RGGRG".toList := by decide

/-- C4 (amended): for guess crane against answer brace the feedback is
Y G G R G (present, exact, exact, absent, exact), and filtering the word list
crane, slate, trace, brace on that feedback retains exactly trace and
brace. -/
theorem crane_brace_scenario_amended :
    WordleGame.getFeedbackForFilter "crane".toList "brace".toList =
      "YGGRG".toList ∧
    WordleGame.filterWords
      ["crane".toList, "slate".toList, "trace".toList, "brace".toList]
      "crane".toList "YGGRG".toList = ["trace".toList, "brace".toList] := by
  decide

/-- C5: for equal-length guess and answer and any letter c, the number of
positions the oracle credits as exact or present among occurrences of c in
the guess never exceeds the number of occurrences of c in the answer, for
both variants of the oracle. -/
theorem letter_credit_le_answer_count (guess answer : Word)
    (h : guess.length = answer.length) (c : Char) :
    WordleGame.creditCount c guess
        (WordleGame.getFeedbackForFilter guess answer) ≤ answer.count c ∧
    WordleGame.creditCount c guess
        (Wordle.getFeedback guess answer) ≤ answer.count c := by
  refine ⟨WordleGame.credit_le_count guess answer h c, ?_⟩
  rw [Wordle.getFeedback_eq]
  exact WordleGame.credit_le_count guess answer h c

/-- C5 witness: the duplicate-letter case of the spec, guess sassy against
answer class; the letter s occurs twice in class, so it is credited at most
twice. -/
theorem letter_credit_le_answer_count_witness :
    ("sassy".toList.length = "class".toList.length) ∧
    "class".toList.count 's' = 2 ∧
    WordleGame.creditCount 's' "sassy".toList
      (WordleGame.getFeedbackForFilter "sassy".toList "class".toList) ≤
      "class".toList.count 's' ∧
    WordleGame.creditCount 's' "sassy".toList
      (Wordle.getFeedback "sassy".toList "class".toList) ≤
      "class".toList.count 's' :=
  ⟨by decide, by decide,
    (letter_credit_le_answer_count "sassy".toList "class".toList (by decide) 's').1,
    (letter_credit_le_answer_count "sassy".toList "class".toList (by decide) 's').2⟩

/-- C6: for every candidate set and every feedback sequence, both solving
loops submit at most MAX_ATTEMPTS (6) guesses, and the solver loop ends in
one of the four terminal outcomes. -/
theorem loop_terminal_within_max_attempts (pick : List Word → Word)
    (allWords possible : List Word) (fbs : List (List Char)) (attemptNo : Nat)
    (guess0 : Word) (possible0 : List Word) (response0 : List Char)
    (fbs0 : List (List Char)) :
    (WordleGame.solve pick allWords possible fbs).2.length ≤
      WordleGame.MAX_ATTEMPTS ∧
    ((∃ g k, (WordleGame.solve pick allWords possible fbs).1 =
        WordleGame.Outcome.won g k) ∨
      (WordleGame.solve pick allWords possible fbs).1 =
        WordleGame.Outcome.noCandidates ∨
      (WordleGame.solve pick allWords possible fbs).1 =
        WordleGame.Outcome.invalidFeedback ∨
      (WordleGame.solve pick allWords possible fbs).1 =
        WordleGame.Outcome.exhausted) ∧
    (Wordle.game 6 attemptNo guess0 possible0 response0 fbs0).2.length ≤ 6 := by
  refine ⟨WordleGame.solveGo_guesses_le pick allWords WordleGame.MAX_ATTEMPTS 1
      fbs possible, ?_,
    Wordle.game_guesses_le 6 attemptNo guess0 possible0 response0 fbs0⟩
  cases h : (WordleGame.solve pick allWords possible fbs).1 with
  | won g k => exact Or.inl ⟨g, k, rfl⟩
  | noCandidates => exact Or.inr (Or.inl rfl)
  | invalidFeedback => exact Or.inr (Or.inr (Or.inl rfl))
  | exhausted => exact Or.inr (Or.inr (Or.inr rfl))

/-- C7: when no line of the word file yields a word of length WORD_LENGTH,
WordleGame construction fails with the ValueError of _load_words before any
session is started and no guess is ever submitted; the Wordle variant's
construction likewise fails (its possible_words[0] indexing) before any API
call. shuf models random.shuffle and therefore preserves length. -/
theorem empty_word_list_aborts (pick : List Word → Word)
    (shuf : List Word → List Word) (lines : List (List Char))
    (fbs : List (List Char)) (hs : ∀ l, (shuf l).length = l.length)
    (h : ∀ w ∈ lines, (WordleGame.strip w).length ≠ WordleGame.WORD_LENGTH) :
    WordleGame.runGame pick lines fbs =
      Except.error "Word list is empty or contains no words of the correct length." ∧
    WordleGame.submittedGuesses (WordleGame.runGame pick lines fbs) = [] ∧
    Wordle.init shuf lines = none ∧ Wordle.run shuf lines fbs = none := by
  have hf5 : lines.filter (fun w => (WordleGame.strip w).length == 5) = [] := by
    rw [List.filter_eq_nil_iff]
    intro w hw
    have hw5 := h w hw
    simp only [WordleGame.WORD_LENGTH] at hw5
    simpa using hw5
  have hload : WordleGame.loadWords lines WordleGame.WORD_LENGTH =
      Except.error "Word list is empty or contains no words of the correct length." := by
    simp [WordleGame.loadWords, WordleGame.WORD_LENGTH, hf5]
  have hrun : WordleGame.runGame pick lines fbs =
      Except.error "Word list is empty or contains no words of the correct length." := by
    simp [WordleGame.runGame, hload]
  have hshuf : shuf [] = [] := List.length_eq_zero.mp (by simpa using hs [])
  have hinit : Wordle.init shuf lines = none := by
    simp only [Wordle.init, hf5, List.map_nil, hshuf]
  exact ⟨hrun, by rw [hrun]; rfl, hinit, by simp [Wordle.run, hinit]⟩

/-- C7 witness: a file whose single line is the one-letter word a. -/
theorem empty_word_list_aborts_witness :
    (∀ l : List Word, (id l).length = l.length) ∧
    (∀ w ∈ ([['a']] : List (List Char)),
      (WordleGame.strip w).length ≠ WordleGame.WORD_LENGTH) ∧
    WordleGame.runGame (fun _ => []) [['a']] [] =
      Except.error "Word list is empty or contains no words of the correct length." ∧
    WordleGame.submittedGuesses (WordleGame.runGame (fun _ => []) [['a']] []) = [] ∧
    Wordle.init id [['a']] = none ∧ Wordle.run id [['a']] [] = none :=
  ⟨fun _ => rfl, by decide,
    (empty_word_list_aborts (fun _ => []) id [['a']] [] (fun _ => rfl) (by decide)).1,
    (empty_word_list_aborts (fun _ => []) id [['a']] [] (fun _ => rfl) (by decide)).2.1,
    (empty_word_list_aborts (fun _ => []) id [['a']] [] (fun _ => rfl) (by decide)).2.2.1,
    (empty_word_list_aborts (fun _ => []) id [['a']] [] (fun _ => rfl) (by decide)).2.2.2⟩

/-- C8: outside the empty, fixed-opener and small-set branches,
_get_best_guess is deterministic (any two randomness sources give the same
result) and returns the first candidate attaining the maximal score: every
candidate scores at most as much, and every earlier candidate scores strictly
less. -/
theorem selector_first_argmax (pick1 pick2 : List Word → Word)
    (possible allWords : List Word) (h2 : 2 < possible.length)
    (hop : ¬(possible.length = allWords.length ∧ WordleGame.soare ∈ possible)) :
    ∃ w, WordleGame.getBestGuess pick1 possible allWords = some w ∧
      WordleGame.getBestGuess pick2 possible allWords = some w ∧
      ∃ l₁ l₂, possible = l₁ ++ w :: l₂ ∧
        (∀ v ∈ possible,
          WordleGame.score possible v ≤ WordleGame.score possible w) ∧
        (∀ v ∈ l₁,
          WordleGame.score possible v < WordleGame.score possible w) := by
  have hne : possible ≠ [] := by
    intro hnil
    rw [hnil] at h2
    simp at h2
  have hle : ¬possible.length ≤ 2 := by omega
  have hbg : ∀ pk : List Word → Word,
      WordleGame.getBestGuess pk possible allWords =
        some (WordleGame.bestLoop (WordleGame.score possible) possible [] (-1)) := by
    intro pk
    simp [WordleGame.getBestGuess, hne, hop, hle]
  rcases WordleGame.bestLoop_spec (WordleGame.score possible) possible [] (-1) with
    ⟨heq, hall⟩ | ⟨l₁, r, l₂, hsplit, heq, hlt, hpre, hpost⟩
  · exfalso
    obtain ⟨p, ps, rfl⟩ := List.exists_cons_of_ne_nil hne
    have hp := hall p (List.mem_cons_self p ps)
    have h0 : (0 : Int) ≤ (WordleGame.score (p :: ps) p : Int) := Int.natCast_nonneg _
    omega
  · refine ⟨r, ?_, ?_, l₁, l₂, hsplit, ?_, hpre⟩
    · rw [hbg pick1, heq]
    · rw [hbg pick2, heq]
    · intro v hv
      rw [hsplit] at hv
      rcases List.mem_append.mp hv with hv | hv
      · exact le_of_lt (hpre v hv)
      · rcases List.mem_cons.mp hv with hv | hv
        · rw [hv]
        · exact hpost v hv

/-- C8 witness: on the four-word candidate list the selector picks trace (the
unique maximal score) for two different randomness sources. -/
theorem selector_first_argmax_witness :
    (2 < (["crane".toList, "slate".toList, "trace".toList, "brace".toList] :
      List Word).length) ∧
    ¬((["crane".toList, "slate".toList, "trace".toList, "brace".toList] :
        List Word).length =
      (["crane".toList, "slate".toList, "trace".toList, "brace".toList,
        "soare".toList] : List Word).length ∧
      WordleGame.soare ∈
        (["crane".toList, "slate".toList, "trace".toList, "brace".toList] :
          List Word)) ∧
    ∃ w, WordleGame.getBestGuess (fun _ => [])
        ["crane".toList, "slate".toList, "trace".toList, "brace".toList]
        ["crane".toList, "slate".toList, "trace".toList, "brace".toList,
          "soare".toList] = some w ∧
      WordleGame.getBestGuess (fun l => l.headD [])
        ["crane".toList, "slate".toList, "trace".toList, "brace".toList]
        ["crane".toList, "slate".toList, "trace".toList, "brace".toList,
          "soare".toList] = some w ∧
      ∃ l₁ l₂,
        (["crane".toList, "slate".toList, "trace".toList, "brace".toList] :
          List Word) = l₁ ++ w :: l₂ ∧
        (∀ v ∈ (["crane".toList, "slate".toList, "trace".toList,
            "brace".toList] : List Word),
          WordleGame.score ["crane".toList, "slate".toList, "trace".toList,
            "brace".toList] v ≤
          WordleGame.score ["crane".toList, "slate".toList, "trace".toList,
            "brace".toList] w) ∧
        (∀ v ∈ l₁,
          WordleGame.score ["crane".toList, "slate".toList, "trace".toList,
            "brace".toList] v <
          WordleGame.score ["crane".toList, "slate".toList, "trace".toList,
            "brace".toList] w) :=
  ⟨by decide, by decide,
    selector_first_argmax (fun _ => []) (fun l => l.headD [])
      ["crane".toList, "slate".toList, "trace".toList, "brace".toList]
      ["crane".toList, "slate".toList, "trace".toList, "brace".toList,
        "soare".toList] (by decide) (by decide)⟩

/-- C9: the oracle applied to a guess against itself returns all-exact
feedback, for both variants. -/
theorem oracle_self_all_exact (g : Word) (h : g.length = 5) :
    WordleGame.getFeedbackForFilter g g = List.replicate 5 'G' ∧
    Wordle.getFeedback g g = List.replicate 5 'G' := by
  have h1 := WordleGame.getFeedbackForFilter_self g
  rw [h] at h1
  exact ⟨h1, by rw [Wordle.getFeedback_eq]; exact h1⟩

/-- C9 witness: the all-exact feedback for crane against itself. -/
theorem oracle_self_all_exact_witness :
    ("crane".toList.length = 5) ∧
    WordleGame.getFeedbackForFilter "crane".toList "crane".toList =
      List.replicate 5 'G' ∧
    Wordle.getFeedback "crane".toList "crane".toList = List.replicate 5 'G' :=
  ⟨by decide, (oracle_self_all_exact "crane".toList (by decide)).1,
    (oracle_self_all_exact "crane".toList (by decide)).2⟩

/-- C10: the two variants of the feedback function agree on five-letter
words: Wordle.get_feedback of wordle_bot.py equals
WordleGame._get_feedback_for_filter of wordle_solver.py. -/
theorem feedback_variants_agree (g b : Word) (hg : g.length = 5)
    (hb : b.length = 5) :
    Wordle.getFeedback g b = WordleGame.getFeedbackForFilter g b :=
  Wordle.getFeedback_eq g b

/-- C10 witness: agreement at guess crane against answer brace. -/
theorem feedback_variants_agree_witness :
    ("crane".toList.length = 5) ∧ ("brace".toList.length = 5) ∧
    Wordle.getFeedback "crane".toList "brace".toList =
      WordleGame.getFeedbackForFilter "crane".toList "brace".toList :=
  ⟨by decide, by decide,
    feedback_variants_agree "crane".toList "brace".toList (by decide) (by decide)⟩
